import Mathlib

/-!
Verification of the Black-Scholes option pricer (`src/main.py`).

The pricing core is shallowly embedded: Python floats become real numbers,
`scipy.stats.norm.cdf` becomes the standard normal CDF written as a Lebesgue
integral, the `Option` class becomes a structure (named `Option'` because core
Lean already uses `Option`), and its constructor becomes an `Except`-valued
function because Python's `/` raises `ZeroDivisionError` on a zero divisor.
-/

open Real MeasureTheory Set

noncomputable section

namespace OptionPricer

/-- `DAYS_IN_YEAR = 365` (src/main.py line 25). -/
def DAYS_IN_YEAR : ℝ := 365

/-- `WEEKS_IN_YEAR = 52+(1/52)` (src/main.py line 26). -/
def WEEKS_IN_YEAR : ℝ := 52 + (1 / 52)

/-- `VALID_TIME_UNITS = {"d": DAYS_IN_YEAR, "w": WEEKS_IN_YEAR, "y": 1}`
(src/main.py line 27), as a key-lookup function; `none` models the `KeyError`
a Python dict raises on a missing key. -/
def VALID_TIME_UNITS (k : String) : Option ℝ :=
  if k = "d" then some DAYS_IN_YEAR
  else if k = "w" then some WEEKS_IN_YEAR
  else if k = "y" then some 1
  else none

/-- The unnormalized standard normal kernel `exp (-t^2 / 2)`. -/
def gauss (t : ℝ) : ℝ := Real.exp (-(t ^ 2) / 2)

/-- `scipy.stats.norm.cdf`: the standard normal cumulative distribution
function, `Φ x = (∫ t ≤ x, exp (-t^2/2)) / sqrt (2π)`. -/
def norm_cdf (x : ℝ) : ℝ := (∫ t in Iic x, gauss t) / Real.sqrt (2 * π)

/-- The standard normal density, which will turn out to be the derivative of
`norm_cdf`. -/
def norm_pdf (t : ℝ) : ℝ := gauss t / Real.sqrt (2 * π)

/-- The attributes an `Option` instance holds after `__init__` finishes
(src/main.py lines 37-93). `is_call` is `some true` / `some false` for the
Python booleans and `none` for anything else (the default `None`). -/
structure Option' where
  is_call : Option Bool
  underlying_price : ℝ
  strike : ℝ
  time_unit : ℝ
  time_to_expiration : ℝ
  rfree_discrete : ℝ
  volatility : ℝ
  rfree_continuous : ℝ

/-- The one runtime error the constructor can hit: Python raises
`ZeroDivisionError` on `x / 0.0`. -/
inductive PyError where
  | zeroDivisionError

/-- `Option.__init__` (src/main.py lines 37-93), keyword-argument path; the
`option_parameters` dict path (lines 71-80) assigns the same seven values with
the same two derived-field formulas, so both paths share this model.
`self.time_to_expiration = time_to_expiration / time_unit` raises
`ZeroDivisionError` when `time_unit` is zero; there is no other validation.
`self.rfree_continuous = np.log(1 + self.rfree_discrete)` is modelled with
`Real.log` (for `1 + rfree_discrete ≤ 0` numpy yields `nan`/`-inf` without
raising, and `Real.log` likewise returns junk rather than failing). -/
def Option'.init (is_call : Option Bool)
    (underlying_price time_unit time_to_expiration strike rfree_discrete
      volatility : ℝ) : Except PyError Option' :=
  if time_unit = 0 then .error .zeroDivisionError
  else .ok
    { is_call := is_call
      underlying_price := underlying_price
      strike := strike
      time_unit := time_unit
      time_to_expiration := time_to_expiration / time_unit
      rfree_discrete := rfree_discrete
      volatility := volatility
      rfree_continuous := Real.log (1 + rfree_discrete) }

/-- `Option.pricer_BS` (src/main.py lines 95-137). Returns `none` for the
final `else` branch (the code prints a message and returns `None`). -/
def Option'.pricer_BS (o : Option') : Option ℝ :=
  let d1 := (Real.log (o.underlying_price / o.strike)
      + o.time_to_expiration * (o.rfree_continuous + o.volatility ^ 2 / 2))
    / (o.volatility * Real.sqrt o.time_to_expiration)
  let d2 := d1 - o.volatility * Real.sqrt o.time_to_expiration
  match o.is_call with
  | some true => some (o.underlying_price * norm_cdf d1
      - o.strike * Real.exp (-o.rfree_continuous * o.time_to_expiration)
        * norm_cdf d2)
  | some false => some (o.strike
      * Real.exp (-o.rfree_continuous * o.time_to_expiration)
        * norm_cdf (-d2)
      - o.underlying_price * norm_cdf d1)
  | none => none

/-- The method call as a state transformer: `pricer_BS` contains no assignment
to `self`, so its state-passing translation returns the receiver unchanged
next to the computed result. -/
def Option'.pricer_BS_method (o : Option') : Option' × Option ℝ :=
  (o, o.pricer_BS)

/-- Modelled from the spec (section 4.2 `price()`): the Black-Scholes price as
the specification writes it, used to check the code against the spec text. -/
def specPrice (isCall : Bool) (S K t r σ : ℝ) : ℝ :=
  let d1 := (Real.log (S / K) + t * (r + σ ^ 2 / 2)) / (σ * Real.sqrt t)
  let d2 := d1 - σ * Real.sqrt t
  if isCall then S * norm_cdf d1 - K * Real.exp (-r * t) * norm_cdf d2
  else K * Real.exp (-r * t) * norm_cdf (-d2) - S * norm_cdf d1

/-- The `d1` intermediate of `pricer_BS` (src/main.py lines 105-109) as a
function of the five fields the method reads. -/
def d1f (S K t r v : ℝ) : ℝ :=
  (Real.log (S / K) + t * (r + v ^ 2 / 2)) / (v * Real.sqrt t)

/-- The `d2` intermediate of `pricer_BS` (src/main.py line 112). -/
def d2f (S K t r v : ℝ) : ℝ := d1f S K t r v - v * Real.sqrt t

/-- The value returned by the `is_call is True` branch of `pricer_BS`
(src/main.py lines 120-125). -/
def callPrice (S K t r v : ℝ) : ℝ :=
  S * norm_cdf (d1f S K t r v)
    - K * Real.exp (-r * t) * norm_cdf (d2f S K t r v)

/-- The value returned by the `is_call is False` branch of `pricer_BS`
(src/main.py lines 128-133). -/
def putPrice (S K t r v : ℝ) : ℝ :=
  K * Real.exp (-r * t) * norm_cdf (-(d2f S K t r v))
    - S * norm_cdf (d1f S K t r v)

/-- The contract of the spec's section 8 concrete scenario, as a call. -/
def sampleCall : Option' :=
  { is_call := some true
    underlying_price := 100
    strike := 100
    time_unit := 1
    time_to_expiration := 1
    rfree_discrete := 0.05
    volatility := 0.2
    rfree_continuous := Real.log (1 + 0.05) }

/-- The same contract as a put. -/
def samplePut : Option' := { sampleCall with is_call := some false }

/-- The same contract with the call/put flag left unset. -/
def sampleNone : Option' := { sampleCall with is_call := none }

/-- The sample call with a higher underlying price. -/
def sampleCallHigherS : Option' := { sampleCall with underlying_price := 110 }

/-- The sample call with a higher volatility. -/
def sampleCallHigherVol : Option' := { sampleCall with volatility := 0.3 }

/-- The sample put with a higher underlying price. -/
def samplePutHigherS : Option' := { samplePut with underlying_price := 110 }

/-- The record produced by constructing with 30 days and the day divisor. -/
def sampleFromInit : Option' :=
  { is_call := some true
    underlying_price := 100
    strike := 100
    time_unit := 365
    time_to_expiration := 30 / 365
    rfree_discrete := 0.05
    volatility := 0.2
    rfree_continuous := Real.log (1 + 0.05) }

/-- The gaussian kernel is continuous. -/
lemma gauss_continuous : Continuous gauss := by
  unfold gauss
  exact Real.continuous_exp.comp ((continuous_pow 2).neg.div_const 2)

/-- The gaussian kernel is everywhere positive. -/
lemma gauss_pos (t : ℝ) : 0 < gauss t := Real.exp_pos _

/-- The gaussian kernel is integrable over the line. -/
lemma gauss_integrable : Integrable gauss := by
  have h := integrable_exp_neg_mul_sq (by norm_num : (0 : ℝ) < 1 / 2)
  have e : gauss = fun x : ℝ => Real.exp (-(1 / 2 : ℝ) * x ^ 2) := by
    funext x
    unfold gauss
    congr 1
    ring
  rw [e]
  exact h

/-- The gaussian kernel is integrable on any set. -/
lemma gauss_integrableOn (s : Set ℝ) : IntegrableOn gauss s :=
  gauss_integrable.integrableOn

/-- The gaussian kernel is interval integrable. -/
lemma gauss_intervalIntegrable (a b : ℝ) :
    IntervalIntegrable gauss volume a b :=
  gauss_integrable.intervalIntegrable

/-- The normalization constant is positive. -/
lemma sqrt_two_pi_pos : 0 < Real.sqrt (2 * π) :=
  Real.sqrt_pos.mpr (by positivity)

/-- The total gaussian integral is `sqrt (2π)`. -/
lemma gauss_total : (∫ t : ℝ, gauss t) = Real.sqrt (2 * π) := by
  have h := integral_gaussian (1 / 2 : ℝ)
  have e : (fun x : ℝ => Real.exp (-(1 / 2 : ℝ) * x ^ 2)) = gauss := by
    funext x
    unfold gauss
    congr 1
    ring
  rw [e] at h
  rw [h]
  congr 1
  ring

/-- The CDF is nonnegative. -/
lemma norm_cdf_nonneg (x : ℝ) : 0 ≤ norm_cdf x :=
  div_nonneg
    (setIntegral_nonneg measurableSet_Iic fun t _ => (gauss_pos t).le)
    (Real.sqrt_nonneg _)

/-- The density is nonnegative. -/
lemma norm_pdf_nonneg (t : ℝ) : 0 ≤ norm_pdf t :=
  div_nonneg (gauss_pos t).le (Real.sqrt_nonneg _)

/-- The density is even. -/
lemma norm_pdf_neg (t : ℝ) : norm_pdf (-t) = norm_pdf t := by
  unfold norm_pdf gauss
  rw [neg_sq]

/-- Reflection: `Φ (-x) = 1 - Φ x`. -/
lemma norm_cdf_neg (x : ℝ) : norm_cdf (-x) = 1 - norm_cdf x := by
  have heven : ∀ t : ℝ, gauss (-t) = gauss t := by
    intro t
    unfold gauss
    rw [neg_sq]
  have h1 : (∫ t in Iic (-x), gauss t) = ∫ t in Ioi x, gauss t := by
    calc (∫ t in Iic (-x), gauss t) = ∫ t in Iic (-x), gauss (-t) := by
          simp_rw [heven]
      _ = ∫ t in Ioi (-(-x)), gauss t := integral_comp_neg_Iic (-x) gauss
      _ = ∫ t in Ioi x, gauss t := by rw [neg_neg]
  have h2 := intervalIntegral.integral_Iic_add_Ioi (b := x)
    (gauss_integrableOn _) (gauss_integrableOn _)
  have h3 : (∫ t in Ioi x, gauss t)
      = Real.sqrt (2 * π) - ∫ t in Iic x, gauss t := by
    rw [← gauss_total, ← h2]
    ring
  unfold norm_cdf
  rw [h1, h3, sub_div, div_self sqrt_two_pi_pos.ne']

/-- `Φ 0 = 1/2`. -/
lemma norm_cdf_zero : norm_cdf 0 = 1 / 2 := by
  have h := norm_cdf_neg 0
  rw [neg_zero] at h
  linarith

/-- The CDF is bounded by one. -/
lemma norm_cdf_le_one (x : ℝ) : norm_cdf x ≤ 1 := by
  have h := norm_cdf_neg (-x)
  rw [neg_neg] at h
  have := norm_cdf_nonneg (-x)
  linarith

/-- The CDF is strictly monotone. -/
lemma norm_cdf_strictMono : StrictMono norm_cdf := by
  intro x y hxy
  unfold norm_cdf
  have hdiff := intervalIntegral.integral_Iic_sub_Iic
    (gauss_integrableOn (Iic x)) (gauss_integrableOn (Iic y))
  have hpos := intervalIntegral.intervalIntegral_pos_of_pos (f := gauss)
    (gauss_intervalIntegrable x y) (fun t => gauss_pos t) hxy
  have hlt : (∫ t in Iic x, gauss t) < ∫ t in Iic y, gauss t := by linarith
  exact (div_lt_div_iff_of_pos_right sqrt_two_pi_pos).mpr hlt

/-- The CDF is monotone. -/
lemma norm_cdf_monotone : Monotone norm_cdf := norm_cdf_strictMono.monotone

/-- The CDF written as a constant plus an interval integral from zero. -/
lemma norm_cdf_eq_add (x : ℝ) :
    norm_cdf x = ((∫ t in Iic (0 : ℝ), gauss t)
      + ∫ t in (0 : ℝ)..x, gauss t) / Real.sqrt (2 * π) := by
  unfold norm_cdf
  rw [← intervalIntegral.integral_Iic_sub_Iic (gauss_integrableOn (Iic 0))
    (gauss_integrableOn (Iic x))]
  ring_nf

/-- Fundamental theorem of calculus: the CDF has the density as derivative. -/
lemma hasDerivAt_norm_cdf (x : ℝ) : HasDerivAt norm_cdf (norm_pdf x) x := by
  have h1 : HasDerivAt (fun y => ∫ t in (0 : ℝ)..y, gauss t) (gauss x) x :=
    intervalIntegral.integral_hasDerivAt_right (gauss_intervalIntegrable 0 x)
      (gauss_continuous.stronglyMeasurableAtFilter volume (nhds x))
      gauss_continuous.continuousAt
  have h2 := (h1.const_add (∫ t in Iic (0 : ℝ), gauss t)).div_const
    (Real.sqrt (2 * π))
  have hfun : (fun y => ((∫ t in Iic (0 : ℝ), gauss t)
      + ∫ t in (0 : ℝ)..y, gauss t) / Real.sqrt (2 * π)) = norm_cdf := by
    funext y
    rw [norm_cdf_eq_add]
  rw [hfun] at h2
  exact h2

/-- A successful construction produces exactly the record with the two derived
fields filled in. -/
lemma Option'.init_ok {u : ℝ} (hu : u ≠ 0) (ic : Option Bool)
    (S t K rd v : ℝ) :
    Option'.init ic S u t K rd v = .ok
      { is_call := ic
        underlying_price := S
        strike := K
        time_unit := u
        time_to_expiration := t / u
        rfree_discrete := rd
        volatility := v
        rfree_continuous := Real.log (1 + rd) } := by
  rw [Option'.init, if_neg hu]

/-- With the flag unset, `pricer_BS` falls through to the `else` branch. -/
lemma pricer_BS_none {o : Option'} (h : o.is_call = none) :
    o.pricer_BS = none := by
  simp [Option'.pricer_BS, h]

/-- With `is_call` set to `True`, `pricer_BS` returns the call branch value. -/
lemma pricer_BS_some_true {o : Option'} (h : o.is_call = some true) :
    o.pricer_BS = some (callPrice o.underlying_price o.strike
      o.time_to_expiration o.rfree_continuous o.volatility) := by
  simp [Option'.pricer_BS, h, callPrice, d1f, d2f]

/-- With `is_call` set to `False`, `pricer_BS` returns the put branch value. -/
lemma pricer_BS_some_false {o : Option'} (h : o.is_call = some false) :
    o.pricer_BS = some (putPrice o.underlying_price o.strike
      o.time_to_expiration o.rfree_continuous o.volatility) := by
  simp [Option'.pricer_BS, h, putPrice, d1f, d2f]

/-- Claim C1: for every contract with positive underlying price, strike,
volatility and time to expiration, `pricer_BS` returns exactly the price the
spec's section 4.2 formula prescribes for its flag (call or put), built from
`d1`, `d2`, and the standard normal CDF. -/
theorem pricer_BS_eq_spec_price (o : Option') (b : Bool)
    (hS : 0 < o.underlying_price) (hK : 0 < o.strike)
    (hv : 0 < o.volatility) (ht : 0 < o.time_to_expiration)
    (hb : o.is_call = some b) :
    o.pricer_BS = some (specPrice b o.underlying_price o.strike
      o.time_to_expiration o.rfree_continuous o.volatility) := by
  cases b <;> simp [Option'.pricer_BS, specPrice, hb]

/-- Witness for C1 at the spec's concrete scenario contract. -/
theorem pricer_BS_eq_spec_price_witness :
    0 < sampleCall.underlying_price ∧ 0 < sampleCall.strike ∧
    0 < sampleCall.volatility ∧ 0 < sampleCall.time_to_expiration ∧
    sampleCall.is_call = some true ∧
    sampleCall.pricer_BS = some (specPrice true sampleCall.underlying_price
      sampleCall.strike sampleCall.time_to_expiration
      sampleCall.rfree_continuous sampleCall.volatility) :=
  ⟨by norm_num [sampleCall], by norm_num [sampleCall], by norm_num [sampleCall],
   by norm_num [sampleCall], rfl,
   pricer_BS_eq_spec_price sampleCall true (by norm_num [sampleCall])
     (by norm_num [sampleCall]) (by norm_num [sampleCall])
     (by norm_num [sampleCall]) rfl⟩

/-- Claim C2: every successful construction fills the two derived fields by
the two conversion formulas, for any divisor and any discrete rate above -1;
they are functions of the inputs, not independently settable. -/
theorem init_derived_fields (ic : Option Bool) (S u t K rd v : ℝ)
    (hu : u ≠ 0) (hrd : -1 < rd) :
    ∃ o : Option', Option'.init ic S u t K rd v = .ok o ∧
      o.time_to_expiration = t / u ∧
      o.rfree_continuous = Real.log (1 + rd) :=
  ⟨_, Option'.init_ok hu ic S t K rd v, rfl, rfl⟩

/-- Witness for C2 at a concrete construction. -/
theorem init_derived_fields_witness :
    ∃ o : Option', Option'.init (some true) 100 365 30 100 0.05 0.2 = .ok o ∧
      o.time_to_expiration = 30 / 365 ∧
      o.rfree_continuous = Real.log (1 + 0.05) :=
  init_derived_fields (some true) 100 365 30 100 0.05 0.2 (by norm_num)
    (by norm_num)

/-- Claim C4 is false as stated: the registry's selectors are the one-letter
keys, so looking up `"day"` fails instead of yielding 365. -/
theorem VALID_TIME_UNITS_day_missing :
    VALID_TIME_UNITS "day" = none ∧ VALID_TIME_UNITS "day" ≠ some 365 := by
  constructor <;> simp [VALID_TIME_UNITS]

/-- Claim C4 amended: the registry maps exactly the selectors `"d"`, `"w"`,
`"y"` to 365, 52 + 1/52 and 1, and every other selector (such as `"month"` or
`"day"`) fails the lookup rather than returning a divisor. -/
theorem VALID_TIME_UNITS_spec :
    VALID_TIME_UNITS "d" = some 365 ∧
    VALID_TIME_UNITS "w" = some (52 + 1 / 52) ∧
    VALID_TIME_UNITS "y" = some 1 ∧
    VALID_TIME_UNITS "month" = none ∧
    VALID_TIME_UNITS "day" = none ∧
    ∀ k : String, k ≠ "d" → k ≠ "w" → k ≠ "y" →
      VALID_TIME_UNITS k = none := by
  refine ⟨by simp [VALID_TIME_UNITS, DAYS_IN_YEAR],
    by simp [VALID_TIME_UNITS, WEEKS_IN_YEAR],
    by simp [VALID_TIME_UNITS], by simp [VALID_TIME_UNITS],
    by simp [VALID_TIME_UNITS], ?_⟩
  intro k h1 h2 h3
  simp [VALID_TIME_UNITS, h1, h2, h3]

/-- Witness for the amended C4 at the selector `"month"`. -/
theorem VALID_TIME_UNITS_spec_witness : VALID_TIME_UNITS "month" = none :=
  VALID_TIME_UNITS_spec.2.2.2.2.2 "month" (by simp) (by simp) (by simp)

/-- Claim C5: the price depends on the raw time and the divisor only through
their quotient; two constructions with equal quotients price identically. -/
theorem pricer_BS_time_unit_invariance (ic : Option Bool)
    (S u₁ t₁ u₂ t₂ K rd v : ℝ) (hu₁ : u₁ ≠ 0) (hu₂ : u₂ ≠ 0)
    (h : t₁ / u₁ = t₂ / u₂) :
    ∃ o₁ o₂ : Option', Option'.init ic S u₁ t₁ K rd v = .ok o₁ ∧
      Option'.init ic S u₂ t₂ K rd v = .ok o₂ ∧
      o₁.pricer_BS = o₂.pricer_BS := by
  refine ⟨_, _, Option'.init_ok hu₁ ic S t₁ K rd v,
    Option'.init_ok hu₂ ic S t₂ K rd v, ?_⟩
  simp only [Option'.pricer_BS, h]

/-- Witness for C5: 30 days with the day divisor against 30/365 years with
the year divisor. -/
theorem pricer_BS_time_unit_invariance_witness :
    ∃ o₁ o₂ : Option',
      Option'.init (some true) 100 365 30 100 0.05 0.2 = .ok o₁ ∧
      Option'.init (some true) 100 1 (30 / 365) 100 0.05 0.2 = .ok o₂ ∧
      o₁.pricer_BS = o₂.pricer_BS :=
  pricer_BS_time_unit_invariance (some true) 100 365 30 1 (30 / 365) 100
    0.05 0.2 (by norm_num) (by norm_num) (by norm_num)

/-- Claim C7 is false as stated: the constructor validates nothing, so a
construction that violates every domain constraint at once (unset flag,
strike -5, zero raw time, zero volatility) succeeds and returns a contract. -/
theorem init_accepts_out_of_domain :
    Option'.init none 100 365 0 (-5) 0.05 0 = .ok
      { is_call := none
        underlying_price := 100
        strike := -5
        time_unit := 365
        time_to_expiration := 0
        rfree_discrete := 0.05
        volatility := 0
        rfree_continuous := Real.log (1 + 0.05) } := by
  rw [Option'.init_ok (by norm_num : (365 : ℝ) ≠ 0) none 100 0 (-5) 0.05 0]
  norm_num

/-- Claim C7 amended: construction performs no domain validation; any
parameter set with a nonzero divisor (including zero volatility, negative
strike, zero raw time, or an unset call/put flag) constructs successfully,
storing the out-of-domain values unchanged, and no `InvalidParameter` failure
exists. -/
theorem init_no_validation (ic : Option Bool) (S u t K rd v : ℝ)
    (hu : u ≠ 0) :
    ∃ o : Option', Option'.init ic S u t K rd v = .ok o ∧
      o.is_call = ic ∧ o.underlying_price = S ∧ o.strike = K ∧
      o.rfree_discrete = rd ∧ o.volatility = v :=
  ⟨_, Option'.init_ok hu ic S t K rd v, rfl, rfl, rfl, rfl, rfl⟩

/-- Witness for the amended C7 at the fully out-of-domain input. -/
theorem init_no_validation_witness :
    ∃ o : Option', Option'.init none 100 365 0 (-5) 0.05 0 = .ok o ∧
      o.is_call = none ∧ o.underlying_price = 100 ∧ o.strike = -5 ∧
      o.rfree_discrete = 0.05 ∧ o.volatility = 0 :=
  init_no_validation none 100 365 0 (-5) 0.05 0 (by norm_num)

/-- Claim C8: an unset (non-boolean) flag makes `pricer_BS` return `None`;
`True` takes exactly the call branch and `False` exactly the put branch, each
returning a numeric price. -/
theorem pricer_BS_is_call_branches :
    (∀ o : Option', o.is_call = none → o.pricer_BS = none) ∧
    (∀ o : Option', o.is_call = some true →
      o.pricer_BS = some (callPrice o.underlying_price o.strike
        o.time_to_expiration o.rfree_continuous o.volatility)) ∧
    (∀ o : Option', o.is_call = some false →
      o.pricer_BS = some (putPrice o.underlying_price o.strike
        o.time_to_expiration o.rfree_continuous o.volatility)) :=
  ⟨fun _ h => pricer_BS_none h, fun _ h => pricer_BS_some_true h,
   fun _ h => pricer_BS_some_false h⟩

/-- Witness for C8 on the three sample contracts. -/
theorem pricer_BS_is_call_branches_witness :
    sampleNone.pricer_BS = none ∧
    sampleCall.pricer_BS = some (callPrice 100 100 1 (Real.log (1 + 0.05))
      0.2) ∧
    samplePut.pricer_BS = some (putPrice 100 100 1 (Real.log (1 + 0.05))
      0.2) :=
  ⟨pricer_BS_is_call_branches.1 sampleNone rfl,
   pricer_BS_is_call_branches.2.1 sampleCall rfl,
   pricer_BS_is_call_branches.2.2 samplePut rfl⟩

/-- Claim C9: the method call leaves every field of the receiver unchanged,
and repeated calls return identical results. -/
theorem pricer_BS_pure (o : Option') :
    o.pricer_BS_method.1 = o ∧
    o.pricer_BS_method.1.is_call = o.is_call ∧
    o.pricer_BS_method.1.underlying_price = o.underlying_price ∧
    o.pricer_BS_method.1.strike = o.strike ∧
    o.pricer_BS_method.1.time_unit = o.time_unit ∧
    o.pricer_BS_method.1.time_to_expiration = o.time_to_expiration ∧
    o.pricer_BS_method.1.rfree_discrete = o.rfree_discrete ∧
    o.pricer_BS_method.1.rfree_continuous = o.rfree_continuous ∧
    o.pricer_BS_method.1.volatility = o.volatility ∧
    o.pricer_BS_method.2 = o.pricer_BS ∧
    o.pricer_BS_method.1.pricer_BS_method.2 = o.pricer_BS_method.2 :=
  ⟨rfl, rfl, rfl, rfl, rfl, rfl, rfl, rfl, rfl, rfl, rfl⟩

/-- Witness for C9 at the sample contract. -/
theorem pricer_BS_pure_witness :
    sampleCall.pricer_BS_method.1 = sampleCall ∧
    sampleCall.pricer_BS_method.2 = sampleCall.pricer_BS :=
  ⟨(pricer_BS_pure sampleCall).1, (pricer_BS_pure sampleCall).2.2.2.2.2.2.2.2.2.1⟩

/-- Claim C10: a zero divisor makes the derived-field division raise
`ZeroDivisionError` during construction, and every contract that does get
constructed has a nonzero divisor. -/
theorem init_zero_divisor_raises :
    (∀ (ic : Option Bool) (S t K rd v : ℝ),
      Option'.init ic S 0 t K rd v = .error .zeroDivisionError) ∧
    (∀ (ic : Option Bool) (S u t K rd v : ℝ) (o : Option'),
      Option'.init ic S u t K rd v = .ok o → o.time_unit ≠ 0) := by
  constructor
  · intro ic S t K rd v
    rw [Option'.init, if_pos rfl]
  · intro ic S u t K rd v o h hu0
    by_cases hu : u = 0
    · rw [Option'.init, if_pos hu] at h
      exact absurd h (by simp)
    · rw [Option'.init_ok hu] at h
      obtain rfl := (Except.ok.injEq _ _).mp h
      exact hu hu0

/-- Witness for C10: construction with divisor 0 errors; a constructed
contract has a nonzero divisor. -/
theorem init_zero_divisor_raises_witness :
    Option'.init (some true) 100 0 30 100 0.05 0.2
      = .error .zeroDivisionError ∧
    sampleFromInit.time_unit ≠ 0 :=
  ⟨init_zero_divisor_raises.1 (some true) 100 30 100 0.05 0.2,
   init_zero_divisor_raises.2 (some true) 100 365 30 100 0.05 0.2
     sampleFromInit
     (Option'.init_ok (by norm_num) (some true) 100 30 100 0.05 0.2)⟩

/-- The Black-Scholes kernel identity `S * φ(d1) = K * exp (-r t) * φ(d2)`:
the two density terms that appear when differentiating the price cancel. -/
lemma spot_pdf_identity (S K t r v : ℝ) (hS : 0 < S) (hK : 0 < K)
    (ht : 0 < t) (hv : 0 < v) :
    S * norm_pdf (d1f S K t r v)
      = K * Real.exp (-r * t) * norm_pdf (d2f S K t r v) := by
  have hV : (0 : ℝ) < v * Real.sqrt t := mul_pos hv (Real.sqrt_pos.mpr ht)
  have hV2 : (v * Real.sqrt t) ^ 2 = v ^ 2 * t := by
    rw [mul_pow, Real.sq_sqrt ht.le]
  have hd1V : d1f S K t r v * (v * Real.sqrt t)
      = Real.log (S / K) + t * (r + v ^ 2 / 2) := by
    unfold d1f
    field_simp
    ring
  have hsq : d1f S K t r v ^ 2 - d2f S K t r v ^ 2
      = 2 * (Real.log (S / K) + r * t) := by
    unfold d2f
    have expand : d1f S K t r v ^ 2 - (d1f S K t r v - v * Real.sqrt t) ^ 2
        = 2 * (d1f S K t r v * (v * Real.sqrt t)) - (v * Real.sqrt t) ^ 2 := by
      ring
    rw [expand, hd1V, hV2]
    ring
  have hlogdiv : Real.log (S / K) = Real.log S - Real.log K :=
    Real.log_div hS.ne' hK.ne'
  have key : S * Real.exp (-(d1f S K t r v ^ 2) / 2)
      = K * Real.exp (-r * t) * Real.exp (-(d2f S K t r v ^ 2) / 2) := by
    calc S * Real.exp (-(d1f S K t r v ^ 2) / 2)
        = Real.exp (Real.log S + -(d1f S K t r v ^ 2) / 2) := by
          rw [Real.exp_add, Real.exp_log hS]
      _ = Real.exp (Real.log K + -r * t + -(d2f S K t r v ^ 2) / 2) := by
          congr 1
          linarith [hsq, hlogdiv]
      _ = K * Real.exp (-r * t) * Real.exp (-(d2f S K t r v ^ 2) / 2) := by
          rw [Real.exp_add, Real.exp_add, Real.exp_log hK]
  unfold norm_pdf gauss
  rw [neg_mul] at key
  field_simp
  linear_combination key

/-- Derivative of `d1` in the underlying price. -/
lemma hasDerivAt_d1f_S (K t r v S : ℝ) (hS : 0 < S) (hK : 0 < K)
    (ht : 0 < t) (hv : 0 < v) :
    HasDerivAt (fun x => d1f x K t r v)
      (1 / (S * (v * Real.sqrt t))) S := by
  have hV : (0 : ℝ) < v * Real.sqrt t := mul_pos hv (Real.sqrt_pos.mpr ht)
  have h0 : HasDerivAt (fun x : ℝ => x / K) (1 / K) S := by
    simpa using (hasDerivAt_id S).div_const K
  have h1 : HasDerivAt (fun x : ℝ => Real.log (x / K)) (1 / K / (S / K)) S :=
    h0.log (by positivity)
  have h3 := (h1.add_const (t * (r + v ^ 2 / 2))).div_const (v * Real.sqrt t)
  have he : 1 / K / (S / K) / (v * Real.sqrt t)
      = 1 / (S * (v * Real.sqrt t)) := by
    field_simp
  rw [he] at h3
  unfold d1f
  exact h3

/-- Derivative of `d2` in the underlying price. -/
lemma hasDerivAt_d2f_S (K t r v S : ℝ) (hS : 0 < S) (hK : 0 < K)
    (ht : 0 < t) (hv : 0 < v) :
    HasDerivAt (fun x => d2f x K t r v)
      (1 / (S * (v * Real.sqrt t))) S := by
  unfold d2f
  exact (hasDerivAt_d1f_S K t r v S hS hK ht hv).sub_const _

/-- The delta of the call branch: its derivative in the underlying price is
`Φ(d1)`, thanks to the kernel identity. -/
lemma hasDerivAt_callPrice_S (K t r v S : ℝ) (hS : 0 < S) (hK : 0 < K)
    (ht : 0 < t) (hv : 0 < v) :
    HasDerivAt (fun x => callPrice x K t r v)
      (norm_cdf (d1f S K t r v)) S := by
  have hd1 := hasDerivAt_d1f_S K t r v S hS hK ht hv
  have hd2 := hasDerivAt_d2f_S K t r v S hS hK ht hv
  have hΦ1 : HasDerivAt (fun x => norm_cdf (d1f x K t r v))
      (norm_pdf (d1f S K t r v) * (1 / (S * (v * Real.sqrt t)))) S :=
    HasDerivAt.comp S (hasDerivAt_norm_cdf _) hd1
  have hΦ2 : HasDerivAt (fun x => norm_cdf (d2f x K t r v))
      (norm_pdf (d2f S K t r v) * (1 / (S * (v * Real.sqrt t)))) S :=
    HasDerivAt.comp S (hasDerivAt_norm_cdf _) hd2
  have ht1 : HasDerivAt (fun x => x * norm_cdf (d1f x K t r v))
      (1 * norm_cdf (d1f S K t r v)
        + S * (norm_pdf (d1f S K t r v) * (1 / (S * (v * Real.sqrt t))))) S :=
    (hasDerivAt_id S).mul hΦ1
  have ht2 : HasDerivAt
      (fun x => K * Real.exp (-r * t) * norm_cdf (d2f x K t r v))
      (K * Real.exp (-r * t)
        * (norm_pdf (d2f S K t r v) * (1 / (S * (v * Real.sqrt t))))) S :=
    hΦ2.const_mul _
  have htot := ht1.sub ht2
  unfold callPrice
  convert htot using 1
  have hid := spot_pdf_identity S K t r v hS hK ht hv
  linear_combination (-(1 / (S * (v * Real.sqrt t)))) * hid

/-- The call branch value is non-decreasing in the underlying price. -/
lemma callPrice_monotoneOn_S (K t r v : ℝ) (hK : 0 < K) (ht : 0 < t)
    (hv : 0 < v) :
    MonotoneOn (fun S => callPrice S K t r v) (Ioi (0 : ℝ)) := by
  have hderiv : ∀ S ∈ Ioi (0 : ℝ),
      HasDerivAt (fun x => callPrice x K t r v)
        (norm_cdf (d1f S K t r v)) S :=
    fun S hS => hasDerivAt_callPrice_S K t r v S hS hK ht hv
  apply monotoneOn_of_deriv_nonneg (convex_Ioi 0)
  · intro S hS
    exact (hderiv S hS).continuousAt.continuousWithinAt
  · intro S hS
    rw [interior_Ioi] at hS
    exact (hderiv S hS).differentiableAt.differentiableWithinAt
  · intro S hS
    rw [interior_Ioi] at hS
    rw [(hderiv S hS).deriv]
    exact norm_cdf_nonneg _

/-- The vega of the call branch: its derivative in the volatility is
`S * φ(d1) * sqrt t`, again by the kernel identity (the messy inner
derivative `A` cancels). -/
lemma hasDerivAt_callPrice_v (S K t r : ℝ) (hS : 0 < S) (hK : 0 < K)
    (ht : 0 < t) (v : ℝ) (hv : 0 < v) :
    HasDerivAt (fun w => callPrice S K t r w)
      (S * norm_pdf (d1f S K t r v) * Real.sqrt t) v := by
  have hst : (0 : ℝ) < Real.sqrt t := Real.sqrt_pos.mpr ht
  have hden : v * Real.sqrt t ≠ 0 := (mul_pos hv hst).ne'
  obtain ⟨A, hd1⟩ : ∃ A, HasDerivAt (fun w => d1f S K t r w) A v := by
    have hnum := ((((hasDerivAt_pow 2 v).div_const 2).const_add r).const_mul
      t).const_add (Real.log (S / K))
    have hdenf := (hasDerivAt_id v).mul_const (Real.sqrt t)
    have h := hnum.div hdenf hden
    exact ⟨_, by unfold d1f; exact h⟩
  have hd2 : HasDerivAt (fun w => d2f S K t r w) (A - Real.sqrt t) v := by
    unfold d2f
    have h := hd1.sub ((hasDerivAt_id v).mul_const (Real.sqrt t))
    simpa using h
  have hΦ1 : HasDerivAt (fun w => norm_cdf (d1f S K t r w))
      (norm_pdf (d1f S K t r v) * A) v :=
    HasDerivAt.comp v (hasDerivAt_norm_cdf _) hd1
  have hΦ2 : HasDerivAt (fun w => norm_cdf (d2f S K t r w))
      (norm_pdf (d2f S K t r v) * (A - Real.sqrt t)) v :=
    HasDerivAt.comp v (hasDerivAt_norm_cdf _) hd2
  have ht1 : HasDerivAt (fun w => S * norm_cdf (d1f S K t r w))
      (S * (norm_pdf (d1f S K t r v) * A)) v := hΦ1.const_mul S
  have ht2 : HasDerivAt
      (fun w => K * Real.exp (-r * t) * norm_cdf (d2f S K t r w))
      (K * Real.exp (-r * t)
        * (norm_pdf (d2f S K t r v) * (A - Real.sqrt t))) v :=
    hΦ2.const_mul _
  have htot := ht1.sub ht2
  unfold callPrice
  convert htot using 1
  have hid := spot_pdf_identity S K t r v hS hK ht hv
  linear_combination (Real.sqrt t - A) * hid

/-- The call branch value is non-decreasing in the volatility. -/
lemma callPrice_monotoneOn_v (S K t r : ℝ) (hS : 0 < S) (hK : 0 < K)
    (ht : 0 < t) :
    MonotoneOn (fun v => callPrice S K t r v) (Ioi (0 : ℝ)) := by
  have hderiv : ∀ v ∈ Ioi (0 : ℝ),
      HasDerivAt (fun w => callPrice S K t r w)
        (S * norm_pdf (d1f S K t r v) * Real.sqrt t) v :=
    fun v hv => hasDerivAt_callPrice_v S K t r hS hK ht v hv
  apply monotoneOn_of_deriv_nonneg (convex_Ioi 0)
  · intro v hv
    exact (hderiv v hv).continuousAt.continuousWithinAt
  · intro v hv
    rw [interior_Ioi] at hv
    exact (hderiv v hv).differentiableAt.differentiableWithinAt
  · intro v hv
    rw [interior_Ioi] at hv
    rw [(hderiv v hv).deriv]
    exact mul_nonneg (mul_nonneg hS.le (norm_pdf_nonneg _))
      (Real.sqrt_nonneg _)

/-- The derivative of the put branch in the underlying price: every term is
nonpositive (the code's put needs no cancellation to be decreasing). -/
lemma hasDerivAt_putPrice_S (K t r v S : ℝ) (hS : 0 < S) (hK : 0 < K)
    (ht : 0 < t) (hv : 0 < v) :
    HasDerivAt (fun x => putPrice x K t r v)
      (-(K * Real.exp (-r * t) * norm_pdf (d2f S K t r v)
          * (1 / (S * (v * Real.sqrt t)))
        + norm_cdf (d1f S K t r v)
        + S * norm_pdf (d1f S K t r v)
          * (1 / (S * (v * Real.sqrt t))))) S := by
  have hd1 := hasDerivAt_d1f_S K t r v S hS hK ht hv
  have hd2 := hasDerivAt_d2f_S K t r v S hS hK ht hv
  have hΦ1 : HasDerivAt (fun x => norm_cdf (d1f x K t r v))
      (norm_pdf (d1f S K t r v) * (1 / (S * (v * Real.sqrt t)))) S :=
    HasDerivAt.comp S (hasDerivAt_norm_cdf _) hd1
  have hΦn : HasDerivAt (fun x => norm_cdf (-(d2f x K t r v)))
      (norm_pdf (-(d2f S K t r v))
        * (-(1 / (S * (v * Real.sqrt t))))) S :=
    HasDerivAt.comp S (hasDerivAt_norm_cdf _) hd2.neg
  have ht1 : HasDerivAt
      (fun x => K * Real.exp (-r * t) * norm_cdf (-(d2f x K t r v)))
      (K * Real.exp (-r * t) * (norm_pdf (-(d2f S K t r v))
        * (-(1 / (S * (v * Real.sqrt t)))))) S :=
    hΦn.const_mul _
  have ht2 : HasDerivAt (fun x => x * norm_cdf (d1f x K t r v))
      (1 * norm_cdf (d1f S K t r v)
        + S * (norm_pdf (d1f S K t r v)
          * (1 / (S * (v * Real.sqrt t))))) S :=
    (hasDerivAt_id S).mul hΦ1
  have htot := ht1.sub ht2
  unfold putPrice
  convert htot using 1
  rw [norm_pdf_neg]
  ring

/-- The put branch value is non-increasing in the underlying price. -/
lemma putPrice_antitoneOn_S (K t r v : ℝ) (hK : 0 < K) (ht : 0 < t)
    (hv : 0 < v) :
    AntitoneOn (fun S => putPrice S K t r v) (Ioi (0 : ℝ)) := by
  have hderiv := fun (S : ℝ) (hS : S ∈ Ioi (0 : ℝ)) =>
    hasDerivAt_putPrice_S K t r v S hS hK ht hv
  apply antitoneOn_of_deriv_nonpos (convex_Ioi 0)
  · intro S hS
    exact (hderiv S hS).continuousAt.continuousWithinAt
  · intro S hS
    rw [interior_Ioi] at hS
    exact (hderiv S hS).differentiableAt.differentiableWithinAt
  · intro S hS
    rw [interior_Ioi] at hS
    rw [(hderiv S hS).deriv]
    have hS0 : (0 : ℝ) < S := hS
    have hw : (0 : ℝ) ≤ 1 / (S * (v * Real.sqrt t)) := by
      have hV : (0 : ℝ) < v * Real.sqrt t :=
        mul_pos hv (Real.sqrt_pos.mpr ht)
      positivity
    have h1 : (0 : ℝ) ≤ K * Real.exp (-r * t) * norm_pdf (d2f S K t r v)
        * (1 / (S * (v * Real.sqrt t))) :=
      mul_nonneg (mul_nonneg (mul_nonneg hK.le (Real.exp_pos _).le)
        (norm_pdf_nonneg _)) hw
    have h2 : (0 : ℝ) ≤ norm_cdf (d1f S K t r v) := norm_cdf_nonneg _
    have h3 : (0 : ℝ) ≤ S * norm_pdf (d1f S K t r v)
        * (1 / (S * (v * Real.sqrt t))) :=
      mul_nonneg (mul_nonneg (le_of_lt hS) (norm_pdf_nonneg _)) hw
    linarith

/-- Claim C3 (code bug): put-call parity fails on the code. At the spec's
section 8 scenario (underlying 100, strike 100, one year, discrete rate 0.05,
volatility 0.2) the call price minus the put price differs from
`S - K * exp (-r * t)`: the put branch of `pricer_BS` uses `Φ(d1)` where the
Black-Scholes put requires `Φ(-d1)`, so call - put comes out as
`2 * S * Φ(d1) - K * exp (-r * t)`, which matches parity only when `d1 = 0`. -/
theorem pricer_BS_parity_violation :
    sampleCall.pricer_BS.getD 0 - samplePut.pricer_BS.getD 0
      ≠ sampleCall.underlying_price - sampleCall.strike
        * Real.exp (-sampleCall.rfree_continuous
          * sampleCall.time_to_expiration) := by
  have hc := pricer_BS_some_true (o := sampleCall) rfl
  have hp := pricer_BS_some_false (o := samplePut) rfl
  rw [hc, hp]
  simp only [Option.getD_some]
  show callPrice 100 100 1 (Real.log (1 + 0.05)) 0.2
      - putPrice 100 100 1 (Real.log (1 + 0.05)) 0.2
    ≠ 100 - 100 * Real.exp (-Real.log (1 + 0.05) * 1)
  have hd1 : 0 < d1f 100 100 1 (Real.log (1 + 0.05)) 0.2 := by
    unfold d1f
    have hlog : Real.log (100 / 100 : ℝ) = 0 := by norm_num [Real.log_one]
    have hl : 0 < Real.log (1 + 0.05 : ℝ) := Real.log_pos (by norm_num)
    rw [hlog, Real.sqrt_one]
    apply div_pos
    · nlinarith [hl]
    · norm_num
  have hgt : 1 / 2 < norm_cdf (d1f 100 100 1 (Real.log (1 + 0.05)) 0.2) := by
    calc 1 / 2 = norm_cdf 0 := norm_cdf_zero.symm
      _ < _ := norm_cdf_strictMono hd1
  unfold callPrice putPrice
  rw [norm_cdf_neg]
  intro heq
  linarith [hgt]

/-- Claim C6: with all other priced fields held fixed and the positivity
preconditions satisfied, the call price is non-decreasing in the underlying
price, the call price is non-decreasing in the volatility, and the put price
is non-increasing in the underlying price. -/
theorem pricer_BS_monotone :
    (∀ o₁ o₂ : Option', o₁.is_call = some true → o₂.is_call = some true →
      o₁.strike = o₂.strike →
      o₁.time_to_expiration = o₂.time_to_expiration →
      o₁.rfree_continuous = o₂.rfree_continuous →
      o₁.volatility = o₂.volatility →
      0 < o₁.strike → 0 < o₁.time_to_expiration → 0 < o₁.volatility →
      0 < o₁.underlying_price →
      o₁.underlying_price ≤ o₂.underlying_price →
      ∃ p₁ p₂, o₁.pricer_BS = some p₁ ∧ o₂.pricer_BS = some p₂ ∧
        p₁ ≤ p₂) ∧
    (∀ o₁ o₂ : Option', o₁.is_call = some true → o₂.is_call = some true →
      o₁.underlying_price = o₂.underlying_price → o₁.strike = o₂.strike →
      o₁.time_to_expiration = o₂.time_to_expiration →
      o₁.rfree_continuous = o₂.rfree_continuous →
      0 < o₁.underlying_price → 0 < o₁.strike →
      0 < o₁.time_to_expiration → 0 < o₁.volatility →
      o₁.volatility ≤ o₂.volatility →
      ∃ p₁ p₂, o₁.pricer_BS = some p₁ ∧ o₂.pricer_BS = some p₂ ∧
        p₁ ≤ p₂) ∧
    (∀ o₁ o₂ : Option', o₁.is_call = some false → o₂.is_call = some false →
      o₁.strike = o₂.strike →
      o₁.time_to_expiration = o₂.time_to_expiration →
      o₁.rfree_continuous = o₂.rfree_continuous →
      o₁.volatility = o₂.volatility →
      0 < o₁.strike → 0 < o₁.time_to_expiration → 0 < o₁.volatility →
      0 < o₁.underlying_price →
      o₁.underlying_price ≤ o₂.underlying_price →
      ∃ p₁ p₂, o₁.pricer_BS = some p₁ ∧ o₂.pricer_BS = some p₂ ∧
        p₂ ≤ p₁) := by
  refine ⟨?_, ?_, ?_⟩
  · intro o₁ o₂ h1 h2 hK ht hr hv hKp htp hvp hSp hle
    refine ⟨_, _, pricer_BS_some_true h1, pricer_BS_some_true h2, ?_⟩
    rw [hK, ht, hr, hv]
    exact callPrice_monotoneOn_S o₂.strike o₂.time_to_expiration
      o₂.rfree_continuous o₂.volatility (hK ▸ hKp) (ht ▸ htp) (hv ▸ hvp)
      hSp (lt_of_lt_of_le hSp hle) hle
  · intro o₁ o₂ h1 h2 hS hK ht hr hSp hKp htp hvp hle
    refine ⟨_, _, pricer_BS_some_true h1, pricer_BS_some_true h2, ?_⟩
    rw [hS, hK, ht, hr]
    exact callPrice_monotoneOn_v o₂.underlying_price o₂.strike
      o₂.time_to_expiration o₂.rfree_continuous (hS ▸ hSp) (hK ▸ hKp)
      (ht ▸ htp) hvp (lt_of_lt_of_le hvp hle) hle
  · intro o₁ o₂ h1 h2 hK ht hr hv hKp htp hvp hSp hle
    refine ⟨_, _, pricer_BS_some_false h1, pricer_BS_some_false h2, ?_⟩
    rw [hK, ht, hr, hv]
    exact putPrice_antitoneOn_S o₂.strike o₂.time_to_expiration
      o₂.rfree_continuous o₂.volatility (hK ▸ hKp) (ht ▸ htp) (hv ▸ hvp)
      hSp (lt_of_lt_of_le hSp hle) hle

/-- Witness for C6 on the sample contracts: underlying 100 against 110 for
the call and the put, and volatility 0.2 against 0.3 for the call. -/
theorem pricer_BS_monotone_witness :
    (∃ p₁ p₂, sampleCall.pricer_BS = some p₁ ∧
      sampleCallHigherS.pricer_BS = some p₂ ∧ p₁ ≤ p₂) ∧
    (∃ p₁ p₂, sampleCall.pricer_BS = some p₁ ∧
      sampleCallHigherVol.pricer_BS = some p₂ ∧ p₁ ≤ p₂) ∧
    (∃ p₁ p₂, samplePut.pricer_BS = some p₁ ∧
      samplePutHigherS.pricer_BS = some p₂ ∧ p₂ ≤ p₁) :=
  ⟨pricer_BS_monotone.1 sampleCall sampleCallHigherS rfl rfl rfl rfl rfl
      rfl (by norm_num [sampleCall]) (by norm_num [sampleCall])
      (by norm_num [sampleCall]) (by norm_num [sampleCall])
      (by norm_num [sampleCall, sampleCallHigherS]),
   pricer_BS_monotone.2.1 sampleCall sampleCallHigherVol rfl rfl rfl rfl
      rfl rfl (by norm_num [sampleCall]) (by norm_num [sampleCall])
      (by norm_num [sampleCall]) (by norm_num [sampleCall])
      (by norm_num [sampleCall, sampleCallHigherVol]),
   pricer_BS_monotone.2.2 samplePut samplePutHigherS rfl rfl rfl rfl rfl
      rfl (by norm_num [samplePut, sampleCall])
      (by norm_num [samplePut, sampleCall])
      (by norm_num [samplePut, sampleCall])
      (by norm_num [samplePut, sampleCall])
      (by norm_num [samplePut, samplePutHigherS, sampleCall])⟩

end OptionPricer
